import Mathlib

/-
Shallow embedding of the `TwigRenderer` class (src/tests/README.md, lines 100-562
of the concatenated source: the `twig-renderer.js` module) and of the plugin glue
that constructs it (src/unnamed/part_001, `renderTemplate`).

Modelling conventions:
* JavaScript `null` values (absent `Warning` header, absent `Content-Type`
  header, absent object fields) are `Option.none`; present strings are `some`.
* The network is an oracle: each `fetch` attempt of one `request()` call is an
  `AttemptOutcome` (a resolved response, or a thrown error carrying `e.message`),
  indexed by the attempt counter.
* Unbounded `while` loops driven by external events (`getOpenPort`'s
  pick-another-port loop, `checkServerWhileStarting`'s readiness poll) are given
  explicit fuel; fuel exhaustion returns `none`, modelling the loop not having
  terminated yet.  The retry loop of `request()` is bounded by the source's own
  `attempts = 3`, so its fuel is exactly that constant.
* Counter interleaving (several concurrent `render`/`renderString`/`getMeta`
  calls on one instance) is modelled by the per-request sequence of counter
  mutations the source performs, interleaved by an arbitrary scheduler; this is
  faithful to the cooperative await-point scheduling of the JS runtime, which
  preserves program order within one `request()` call.
-/

set_option maxHeartbeats 1000000

namespace TwigRenderer

/-- Worker lifecycle states, mirroring the frozen `serverStates` object. -/
inductive ServerState
  | STOPPED
  | STARTING
  | READY
  | STOPPING
deriving DecidableEq

/-- Subset of the renderer configuration read by the dispatcher, the idle
shutdown and the constructor: `verbose`, `keepAlive`, `debug`, `autoescape`.
The path-valued fields (`src`, `relativeFrom`, `alterTwigEnv`) that
`validateConfig`/`processPaths` rewrite never touch these flags and are elided
as irrelevant to the claims. -/
structure TwigConfig where
  verbose : Bool
  keepAlive : Bool
  debug : Bool
  autoescape : Bool
deriving DecidableEq

/-- The three request counters of a renderer instance.  `inProgressRequests` is
an integer (a JS number that is incremented and decremented). -/
structure Counters where
  totalRequests : Nat
  completedRequests : Nat
  inProgressRequests : Int
deriving DecidableEq

/-- Instance fields of `TwigRenderer` that the claims observe.  `portsUsed` is
the `Set` of issued ports (modelled as a duplicate-free list built by
`getOpenPort`). -/
structure TwigRendererState where
  portsUsed : List Nat
  serverState : ServerState
  inProgressRequests : Int
  totalRequests : Nat
  completedRequests : Nat
  config : TwigConfig
deriving DecidableEq

/-- The `TwigRenderer` constructor: copies the user config
(`Object.assign` on an empty object), then unconditionally overwrites
`config.verbose = true`, and initialises `portsUsed` empty, `serverState`
STOPPED and all three counters to zero.  `validateConfig` (called last) only
rewrites path fields, never the flags modelled here. -/
def mkTwigRenderer (userConfig : TwigConfig) : TwigRendererState :=
  { portsUsed := [],
    serverState := ServerState.STOPPED,
    inProgressRequests := 0,
    totalRequests := 0,
    completedRequests := 0,
    config := { userConfig with verbose := true } }

/-- Projection of the renderer instance onto its three request counters. -/
def TwigRendererState.counters (s : TwigRendererState) : Counters :=
  { totalRequests := s.totalRequests,
    completedRequests := s.completedRequests,
    inProgressRequests := s.inProgressRequests }

/-- Renderer configuration assembled by the plugin glue (`renderTemplate` in
the vite plugin): `keepAlive` is hard-coded to `false`, while `debug`,
`autoescape` and `verbose` fall back to `true`/`false`/`false` respectively
when the corresponding plugin option is `undefined`. -/
def pluginRendererConfig (optDebug optAutoescape optVerbose : Option Bool) : TwigConfig :=
  { verbose := optVerbose.getD false,
    keepAlive := false,
    debug := optDebug.getD true,
    autoescape := optAutoescape.getD false }

/-- Result shape returned by `request`: `ok`, `html`, `message`.  `html` and
`message` are `Option String` because the source can leave them absent
(the retry-failure result has no `html` field; `message` is the possibly null
`Warning` header). -/
structure RenderResult where
  ok : Bool
  html : Option String
  message : Option String
deriving DecidableEq

/-- The observable parts of a resolved `fetch` response used by `request`:
the `ok` flag, the `Content-Type` and `Warning` headers (null when absent),
the value `res.json()` parses to, and the value `res.text()` yields. -/
structure WorkerResponse where
  ok : Bool
  contentType : Option String
  warning : Option String
  jsonBody : RenderResult
  textBody : String
deriving DecidableEq

/-- Outcome of one `fetch` attempt: the promise resolves to a response, or it
rejects (network failure) with an error whose `message` is captured. -/
inductive AttemptOutcome
  | success (resp : WorkerResponse)
  | failure (msg : String)
deriving DecidableEq

/-- Content-type branching of `request` on a resolved response: a body typed
`application/json` is parsed as the structured result; any other content type
yields `ok` from the response, the raw body text as `html`, and the `Warning`
header (null when absent) as `message`. -/
def interpretResponse (resp : WorkerResponse) : RenderResult :=
  if resp.contentType = some "application/json" then resp.jsonBody
  else { ok := resp.ok, html := some resp.textBody, message := resp.warning }

/-- The fixed attempt ceiling `const attempts = 3` of `request`. -/
def attempts : Nat := 3

/-- What one run of the retry loop of `request` produces: the final `results`
value (none only when the loop body never ran), the number of `fetch` calls
issued, and how many times `completedRequests` was incremented. -/
structure LoopOutcome where
  result : Option RenderResult
  fetchCalls : Nat
  completedDelta : Nat
deriving DecidableEq

/-- The retry loop `while (attempt < attempts)` of `request`, with
`fuel = attempts - attempt` made explicit so the recursion is structural.
A successful attempt sets `results` from the response and increments
`completedRequests` once, then breaks; a failed attempt records
`ok false` with the error message as `results` (overwritten when a later
attempt runs) and continues. -/
def requestLoopGo (outs : Nat → AttemptOutcome) : Nat → Nat → LoopOutcome
  | _, 0 => { result := none, fetchCalls := 0, completedDelta := 0 }
  | attempt, fuel + 1 =>
    match outs attempt with
    | AttemptOutcome.success resp =>
      { result := some (interpretResponse resp), fetchCalls := 1, completedDelta := 1 }
    | AttemptOutcome.failure msg =>
      let rest := requestLoopGo outs (attempt + 1) fuel
      { result := some (rest.result.getD { ok := false, html := none, message := some msg }),
        fetchCalls := rest.fetchCalls + 1,
        completedDelta := rest.completedDelta }

/-- The full retry loop of one `request` call, started at attempt 0. -/
def requestOutcome (outs : Nat → AttemptOutcome) : LoopOutcome :=
  requestLoopGo outs 0 attempts

/-- Sequential view of one `request` call's effect on the counters together
with its returned result: `totalRequests` is incremented once at entry,
`completedRequests` by the loop's delta; each `inProgressRequests` increment
is matched by a decrement before the call returns.  The `init`/readiness and
concurrency-gate polling of `request` only read or delay and never change
these counters, so they are elided here (the interleaved-counter model below
covers the transient states). -/
def requestStep (outs : Nat → AttemptOutcome) (c : Counters) : Option RenderResult × Counters :=
  let lo := requestOutcome outs
  (lo.result,
    { totalRequests := c.totalRequests + 1,
      completedRequests := c.completedRequests + lo.completedDelta,
      inProgressRequests := c.inProgressRequests })

/-- Body of a dispatcher request: the JSON object with optional `template` and
`data` fields (`request(type, body = \x7b\x7d)` defaults both absent).  The data
payload type is abstract. -/
structure RequestBody (δ : Type) where
  template : Option String
  data : Option δ

/-- Dispatcher entry `request(type, body)`: the network oracle is keyed by the
request type and body, so the result depends on exactly what was dispatched. -/
def request {δ : Type} (net : String → RequestBody δ → Nat → AttemptOutcome)
    (type : String) (body : RequestBody δ) (c : Counters) : Option RenderResult × Counters :=
  requestStep (net type body) c

/-- What `closeServer` decides to do: call `stop()` now, schedule the one
re-check with `setTimeout(_, delayMs)`, or nothing. -/
inductive CloseAction
  | stopNow
  | recheckAfter (delayMs : Nat)
  | noAction
deriving DecidableEq

/-- The `closeServer` idle-shutdown evaluation, translated verbatim: only when
`config.keepAlive === false`, and with the source's (tautological) disjunction
on the server state kept as written. -/
def closeServerAction (keepAlive : Bool) (completed total : Nat) (inProgress : Int)
    (st : ServerState) : CloseAction :=
  if keepAlive = false then
    if completed = total ∧ inProgress = 0 ∧
        (st ≠ ServerState.STOPPING ∨ st ≠ ServerState.STOPPED) then
      CloseAction.stopNow
    else
      CloseAction.recheckAfter 300
  else
    CloseAction.noAction

/-- The delayed re-check inside `closeServer`'s `setTimeout` callback: `stop()`
is called exactly when the counter condition holds at that later time. -/
def closeServerRecheck (completed total : Nat) (inProgress : Int) : Bool :=
  decide (completed = total ∧ inProgress = 0)

/-- Facade `render(template, data)`: awaits
`request("renderFile", with template and data)`, then runs `closeServer` on the
post-dispatch counters and current state, and returns the request's result
unchanged. -/
def render {δ : Type} (net : String → RequestBody δ → Nat → AttemptOutcome)
    (template : String) (data : δ) (cfg : TwigConfig) (c : Counters) (st : ServerState) :
    Option RenderResult × Counters × CloseAction :=
  let p := request net "renderFile" { template := some template, data := some data } c
  (p.1, p.2,
    closeServerAction cfg.keepAlive p.2.completedRequests p.2.totalRequests
      p.2.inProgressRequests st)

/-- Facade `renderString(template, data)`: identical to `render` except the
request type is `renderString`. -/
def renderString {δ : Type} (net : String → RequestBody δ → Nat → AttemptOutcome)
    (template : String) (data : δ) (cfg : TwigConfig) (c : Counters) (st : ServerState) :
    Option RenderResult × Counters × CloseAction :=
  let p := request net "renderString" { template := some template, data := some data } c
  (p.1, p.2,
    closeServerAction cfg.keepAlive p.2.completedRequests p.2.totalRequests
      p.2.inProgressRequests st)

/-- Facade `getMeta()`: `request("meta")` with the defaulted empty body, and no
`closeServer` call. -/
def getMeta {δ : Type} (net : String → RequestBody δ → Nat → AttemptOutcome)
    (c : Counters) : Option RenderResult × Counters :=
  request net "meta" { template := none, data := none } c

/-- The readiness poll `checkServerWhileStarting`: re-reads `serverState`
(the i-th read is `observed i`; `checkIfServerIsReady` may have set it to READY
and the process observers may have set it to STOPPING/STOPPED), loops while it
is STARTING, and returns the state it last read.  Fuel exhaustion (`none`)
models the poll still running. -/
def checkLoop (observed : Nat → ServerState) : Nat → Nat → Option ServerState
  | 0, i => if observed i = ServerState.STARTING then none else some (observed i)
  | fuel + 1, i =>
    if observed i = ServerState.STARTING then checkLoop observed fuel (i + 1)
    else some (observed i)

/-- Observable outcome of one `init()` call: the server state at the moment it
returns, and whether this call allocated a port, wrote the shared config file,
and spawned a worker process. -/
structure InitResult where
  returnedState : ServerState
  portAllocated : Bool
  configWritten : Bool
  spawned : Bool
deriving DecidableEq

/-- `init()`: an early return when already STARTING (state untouched); the
optimistic STOPPING to READY flip; otherwise the spawn path (set STARTING,
allocate a port, write the shared config, spawn, register observers) followed
by `checkServerWhileStarting`, whose exit state is what `init` returns.
`none` models an `init` call that has not resolved. -/
def init (entry : ServerState) (observed : Nat → ServerState) (fuel : Nat) :
    Option InitResult :=
  match entry with
  | ServerState.STARTING =>
    some { returnedState := ServerState.STARTING, portAllocated := false,
           configWritten := false, spawned := false }
  | ServerState.STOPPING =>
    some { returnedState := ServerState.READY, portAllocated := false,
           configWritten := false, spawned := false }
  | _ =>
    (checkLoop observed fuel 0).map fun s =>
      { returnedState := s, portAllocated := true, configWritten := true, spawned := true }

/-- The pick-a-port loop of `getOpenPort`: `offers i` is the i-th port the
operating system offers; the loop re-requests while the offer is already in
`portsUsed`.  Fuel exhaustion models the (in practice port-space bounded)
loop not having terminated. -/
def pickPort (offers : Nat → Nat) (used : List Nat) : Nat → Nat → Option Nat
  | 0, i => if offers i ∈ used then none else some (offers i)
  | fuel + 1, i =>
    if offers i ∈ used then pickPort offers used fuel (i + 1)
    else some (offers i)

/-- `getOpenPort()`: picks a port not yet in `portsUsed` and adds it to the
registry before returning; returns the port and the updated registry. -/
def getOpenPort (offers : Nat → Nat) (used : List Nat) (fuel : Nat) :
    Option (Nat × List Nat) :=
  match pickPort offers used fuel 0 with
  | none => none
  | some p => some (p, p :: used)

/-- Any number of consecutive `getOpenPort()` calls on one renderer instance
(one per restart), each with its own OS offer stream and fuel, threading the
`portsUsed` registry through; returns the list of issued ports and the final
registry. -/
def getOpenPortRuns : List ((Nat → Nat) × Nat) → List Nat → Option (List Nat × List Nat)
  | [], used => some ([], used)
  | (offers, fuel) :: rest, used =>
    match getOpenPort offers used fuel with
    | none => none
    | some (p, used2) =>
      match getOpenPortRuns rest used2 with
      | none => none
      | some (ps, final) => some (p :: ps, final)

/-- One atomic counter mutation performed by `request`. -/
inductive CounterEvent
  | incTotal
  | incInProgress
  | decInProgress
  | incCompleted
deriving DecidableEq

/-- Effect of one counter mutation on the counters. -/
def applyEvent (c : Counters) : CounterEvent → Counters
  | CounterEvent.incTotal => { c with totalRequests := c.totalRequests + 1 }
  | CounterEvent.incInProgress => { c with inProgressRequests := c.inProgressRequests + 1 }
  | CounterEvent.decInProgress => { c with inProgressRequests := c.inProgressRequests - 1 }
  | CounterEvent.incCompleted => { c with completedRequests := c.completedRequests + 1 }

/-- Counter mutations of the retry loop, in program order: each attempt
increments `inProgressRequests`; a successful attempt then decrements it and
increments `completedRequests` and breaks; a failed attempt decrements it and
retries. -/
def retryEventsGo (outs : Nat → AttemptOutcome) : Nat → Nat → List CounterEvent
  | _, 0 => []
  | attempt, fuel + 1 =>
    match outs attempt with
    | AttemptOutcome.success _ =>
      [CounterEvent.incInProgress, CounterEvent.decInProgress, CounterEvent.incCompleted]
    | AttemptOutcome.failure _ =>
      CounterEvent.incInProgress :: CounterEvent.decInProgress ::
        retryEventsGo outs (attempt + 1) fuel

/-- Counter mutations of one whole `request` call in program order:
`totalRequests` is incremented once at entry, before the retry loop.  The
polling loops of `request` mutate no counters. -/
def requestEvents (outs : Nat → AttemptOutcome) : List CounterEvent :=
  CounterEvent.incTotal :: retryEventsGo outs 0 attempts

/-- Number of occurrences of one event in a mutation list. -/
def evCount (a : CounterEvent) : List CounterEvent → Nat
  | [] => 0
  | e :: tl => (if e = a then 1 else 0) + evCount a tl

/-- One scheduler step: pending queue `i` (the remaining mutations of the i-th
in-flight `request` call) performs its next mutation, if any. -/
def stepSched (c : Counters) (qs : List (List CounterEvent)) (i : Nat) :
    Counters × List (List CounterEvent) :=
  match qs[i]? with
  | some (e :: tl) => (applyEvent c e, qs.set i tl)
  | _ => (c, qs)

/-- Run an arbitrary interleaving: the schedule names, step by step, which
in-flight request performs its next counter mutation. -/
def runSched : Counters → List (List CounterEvent) → List Nat → Counters × List (List CounterEvent)
  | c, qs, [] => (c, qs)
  | c, qs, i :: sched => runSched (stepSched c qs i).1 (stepSched c qs i).2 sched

/- ## Helper lemmas -/

theorem requestLoopGo_fetchCalls_le (outs : Nat → AttemptOutcome) :
    ∀ (fuel attempt : Nat), (requestLoopGo outs attempt fuel).fetchCalls ≤ fuel := by
  intro fuel
  induction fuel with
  | zero => intro attempt; simp [requestLoopGo]
  | succ f ih =>
    intro attempt
    cases h : outs attempt with
    | success resp => simp [requestLoopGo, h]
    | failure msg =>
      simp only [requestLoopGo, h]
      have := ih (attempt + 1)
      omega

theorem checkLoop_ne_starting (observed : Nat → ServerState) :
    ∀ (fuel i : Nat) (s : ServerState),
      checkLoop observed fuel i = some s → s ≠ ServerState.STARTING := by
  intro fuel
  induction fuel with
  | zero =>
    intro i s h
    by_cases hs : observed i = ServerState.STARTING
    · simp [checkLoop, hs] at h
    · simp [checkLoop, hs] at h
      exact h ▸ hs
  | succ f ih =>
    intro i s h
    by_cases hs : observed i = ServerState.STARTING
    · simp only [checkLoop, hs, if_pos] at h
      exact ih (i + 1) s h
    · simp [checkLoop, hs] at h
      exact h ▸ hs

theorem pickPort_not_used (offers : Nat → Nat) (used : List Nat) :
    ∀ (fuel i p : Nat), pickPort offers used fuel i = some p → p ∉ used := by
  intro fuel
  induction fuel with
  | zero =>
    intro i p h
    by_cases hm : offers i ∈ used
    · simp [pickPort, hm] at h
    · simp [pickPort, hm] at h
      exact h ▸ hm
  | succ f ih =>
    intro i p h
    by_cases hm : offers i ∈ used
    · simp only [pickPort, hm, if_pos] at h
      exact ih (i + 1) p h
    · simp [pickPort, hm] at h
      exact h ▸ hm

/-- Completed-request increments a queue can still perform whose matching
`totalRequests` increment has already been consumed: pending mutation lists
that still contain their `incTotal` contribute nothing. -/
def reserved (L : List CounterEvent) : Nat :=
  if evCount CounterEvent.incTotal L = 0 then evCount CounterEvent.incCompleted L else 0

/-- Sum of `reserved` over all pending queues. -/
def reservedSum : List (List CounterEvent) → Nat
  | [] => 0
  | L :: qs => reserved L + reservedSum qs

/-- Shape of a pending mutation queue: either its `incTotal` was already
consumed (none left, at most one `incCompleted` left), or it is untouched up
to its leading `incTotal`, behind which at most one `incCompleted` remains. -/
def wfQueue (L : List CounterEvent) : Prop :=
  (evCount CounterEvent.incCompleted L ≤ 1 ∧ evCount CounterEvent.incTotal L = 0) ∨
  (∃ tl, L = CounterEvent.incTotal :: tl ∧ evCount CounterEvent.incCompleted tl ≤ 1 ∧
    evCount CounterEvent.incTotal tl = 0)

/-- Scheduler invariant: all pending queues are well-formed, and the completed
counter plus the reserved pending completions never exceeds the total
counter. -/
def schedInv (c : Counters) (qs : List (List CounterEvent)) : Prop :=
  (∀ L ∈ qs, wfQueue L) ∧ c.completedRequests + reservedSum qs ≤ c.totalRequests

theorem evCount_cons (a e : CounterEvent) (tl : List CounterEvent) :
    evCount a (e :: tl) = (if e = a then 1 else 0) + evCount a tl := rfl

theorem wfQueue_tail (e : CounterEvent) (tl : List CounterEvent)
    (h : wfQueue (e :: tl)) : wfQueue tl := by
  rcases h with ⟨hc, ht⟩ | ⟨tl2, heq, hc, ht⟩
  · left
    rw [evCount_cons] at hc ht
    constructor
    · omega
    · omega
  · left
    have : tl = tl2 := by
      injection heq with h1 h2
    rw [this]
    exact ⟨hc, ht⟩

theorem getElem?_mem_list : ∀ (qs : List (List CounterEvent)) (i : Nat) (L : List CounterEvent),
    qs[i]? = some L → L ∈ qs := by
  intro qs
  induction qs with
  | nil => intro i L h; simp at h
  | cons q rest ih =>
    intro i L h
    cases i with
    | zero =>
      simp only [List.getElem?_cons_zero, Option.some.injEq] at h
      rw [h]
      exact List.mem_cons_self L rest
    | succ j =>
      simp only [List.getElem?_cons_succ] at h
      exact List.mem_cons_of_mem q (ih j L h)

theorem mem_set_cases : ∀ (qs : List (List CounterEvent)) (i : Nat)
    (tl L : List CounterEvent), L ∈ qs.set i tl → L ∈ qs ∨ L = tl := by
  intro qs
  induction qs with
  | nil => intro i tl L h; simp at h
  | cons q rest ih =>
    intro i tl L h
    cases i with
    | zero =>
      simp only [List.set_cons_zero] at h
      rcases List.mem_cons.mp h with h | h
      · exact Or.inr h
      · exact Or.inl (List.mem_cons_of_mem q h)
    | succ j =>
      simp only [List.set_cons_succ] at h
      rcases List.mem_cons.mp h with h | h
      · exact Or.inl (h ▸ List.mem_cons_self q rest)
      · rcases ih j tl L h with h | h
        · exact Or.inl (List.mem_cons_of_mem q h)
        · exact Or.inr h

theorem reservedSum_set : ∀ (qs : List (List CounterEvent)) (i : Nat)
    (L tl : List CounterEvent), qs[i]? = some L →
    reservedSum (qs.set i tl) + reserved L = reservedSum qs + reserved tl := by
  intro qs
  induction qs with
  | nil => intro i L tl h; simp at h
  | cons q rest ih =>
    intro i L tl h
    cases i with
    | zero =>
      simp only [List.getElem?_cons_zero, Option.some.injEq] at h
      rw [h, List.set_cons_zero]
      simp only [reservedSum]
      omega
    | succ j =>
      simp only [List.getElem?_cons_succ] at h
      rw [List.set_cons_succ]
      simp only [reservedSum]
      have := ih j L tl h
      omega

theorem stepSched_inv (c : Counters) (qs : List (List CounterEvent)) (i : Nat)
    (h : schedInv c qs) : schedInv (stepSched c qs i).1 (stepSched c qs i).2 := by
  obtain ⟨hwf, hle⟩ := h
  cases hq : qs[i]? with
  | none => simpa [stepSched, hq] using ⟨hwf, hle⟩
  | some L =>
    cases L with
    | nil => simpa [stepSched, hq] using ⟨hwf, hle⟩
    | cons e tl =>
      have hwfL : wfQueue (e :: tl) := hwf _ (getElem?_mem_list qs i _ hq)
      have hsum := reservedSum_set qs i (e :: tl) tl hq
      have hwf2 : ∀ M ∈ qs.set i tl, wfQueue M := by
        intro M hM
        rcases mem_set_cases qs i tl M hM with hM | hM
        · exact hwf M hM
        · rw [hM]
          exact wfQueue_tail e tl hwfL
      simp only [stepSched, hq]
      cases e with
      | incTotal =>
        refine ⟨hwf2, ?_⟩
        have hres : reserved (CounterEvent.incTotal :: tl) = 0 := by
          simp [reserved, evCount_cons]
        have htl : evCount CounterEvent.incTotal tl = 0 ∧
            evCount CounterEvent.incCompleted tl ≤ 1 := by
          rcases hwfL with ⟨hc1, ht1⟩ | ⟨tl2, heq, hc2, ht2⟩
          · rw [evCount_cons] at ht1; simp at ht1
          · injection heq with h1 h2
            rw [h2]
            exact ⟨ht2, hc2⟩
        have hres2 : reserved tl ≤ 1 := by
          rw [reserved, if_pos htl.1]
          exact htl.2
        simp only [applyEvent]
        omega
      | incCompleted =>
        refine ⟨hwf2, ?_⟩
        have hnot : evCount CounterEvent.incTotal (CounterEvent.incCompleted :: tl) = 0 := by
          rcases hwfL with ⟨hc1, ht1⟩ | ⟨tl2, heq, hc2, ht2⟩
          · exact ht1
          · exact absurd heq (by simp)
        have htl0 : evCount CounterEvent.incTotal tl = 0 := by
          rw [evCount_cons] at hnot; omega
        have hresL : reserved (CounterEvent.incCompleted :: tl) =
            1 + evCount CounterEvent.incCompleted tl := by
          rw [reserved, if_pos hnot, evCount_cons]
          simp
        have hres2 : reserved tl = evCount CounterEvent.incCompleted tl := by
          rw [reserved, if_pos htl0]
        simp only [applyEvent]
        omega
      | incInProgress =>
        refine ⟨hwf2, ?_⟩
        have hnot : evCount CounterEvent.incTotal (CounterEvent.incInProgress :: tl) = 0 := by
          rcases hwfL with ⟨hc1, ht1⟩ | ⟨tl2, heq, hc2, ht2⟩
          · exact ht1
          · exact absurd heq (by simp)
        have htl0 : evCount CounterEvent.incTotal tl = 0 := by
          rw [evCount_cons] at hnot; omega
        have hresL : reserved (CounterEvent.incInProgress :: tl) =
            evCount CounterEvent.incCompleted tl := by
          rw [reserved, if_pos hnot, evCount_cons]
          simp
        have hres2 : reserved tl = evCount CounterEvent.incCompleted tl := by
          rw [reserved, if_pos htl0]
        simp only [applyEvent]
        omega
      | decInProgress =>
        refine ⟨hwf2, ?_⟩
        have hnot : evCount CounterEvent.incTotal (CounterEvent.decInProgress :: tl) = 0 := by
          rcases hwfL with ⟨hc1, ht1⟩ | ⟨tl2, heq, hc2, ht2⟩
          · exact ht1
          · exact absurd heq (by simp)
        have htl0 : evCount CounterEvent.incTotal tl = 0 := by
          rw [evCount_cons] at hnot; omega
        have hresL : reserved (CounterEvent.decInProgress :: tl) =
            evCount CounterEvent.incCompleted tl := by
          rw [reserved, if_pos hnot, evCount_cons]
          simp
        have hres2 : reserved tl = evCount CounterEvent.incCompleted tl := by
          rw [reserved, if_pos htl0]
        simp only [applyEvent]
        omega

theorem runSched_inv : ∀ (sched : List Nat) (c : Counters) (qs : List (List CounterEvent)),
    schedInv c qs → schedInv (runSched c qs sched).1 (runSched c qs sched).2 := by
  intro sched
  induction sched with
  | nil => intro c qs h; exact h
  | cons i rest ih =>
    intro c qs h
    exact ih _ _ (stepSched_inv c qs i h)

theorem retryEventsGo_no_total (outs : Nat → AttemptOutcome) :
    ∀ (fuel attempt : Nat),
      evCount CounterEvent.incTotal (retryEventsGo outs attempt fuel) = 0 := by
  intro fuel
  induction fuel with
  | zero => intro attempt; rfl
  | succ f ih =>
    intro attempt
    cases h : outs attempt with
    | success resp => simp [retryEventsGo, h, evCount]
    | failure msg =>
      simp only [retryEventsGo, h]
      rw [evCount_cons, evCount_cons, ih (attempt + 1)]
      simp

theorem retryEventsGo_completed_le_one (outs : Nat → AttemptOutcome) :
    ∀ (fuel attempt : Nat),
      evCount CounterEvent.incCompleted (retryEventsGo outs attempt fuel) ≤ 1 := by
  intro fuel
  induction fuel with
  | zero => intro attempt; simp [retryEventsGo, evCount]
  | succ f ih =>
    intro attempt
    cases h : outs attempt with
    | success resp => simp [retryEventsGo, h, evCount]
    | failure msg =>
      simp only [retryEventsGo, h]
      rw [evCount_cons, evCount_cons]
      have := ih (attempt + 1)
      simp only [reduceCtorEq, if_false]
      omega

theorem requestEvents_wf (outs : Nat → AttemptOutcome) : wfQueue (requestEvents outs) :=
  Or.inr ⟨retryEventsGo outs 0 attempts, rfl,
    retryEventsGo_completed_le_one outs attempts 0,
    retryEventsGo_no_total outs attempts 0⟩

theorem reservedSum_requestEvents : ∀ (reqs : List (Nat → AttemptOutcome)),
    reservedSum (reqs.map requestEvents) = 0 := by
  intro reqs
  induction reqs with
  | nil => rfl
  | cons outs rest ih =>
    simp only [List.map_cons, reservedSum, ih]
    have : reserved (requestEvents outs) = 0 := by
      rw [reserved, requestEvents, evCount_cons]
      simp
    omega

/- ## Theorems settling the claims -/

/-- C1: each `request` call (hence each `render`, `renderString` and `getMeta`
call) increments `totalRequests` exactly once, as its first counter mutation,
and increments `completedRequests` at most once; and for every collection of
requests on one freshly constructed renderer instance and every interleaving
of their counter mutations, `completedRequests ≤ totalRequests` holds at every
observation point (every prefix of the interleaving is itself a schedule). -/
theorem requestCounters_invariant :
    (∀ outs : Nat → AttemptOutcome,
      evCount CounterEvent.incTotal (requestEvents outs) = 1 ∧
      (requestEvents outs).head? = some CounterEvent.incTotal ∧
      evCount CounterEvent.incCompleted (requestEvents outs) ≤ 1) ∧
    ∀ (user : TwigConfig) (reqs : List (Nat → AttemptOutcome)) (sched : List Nat),
      (runSched (mkTwigRenderer user).counters (reqs.map requestEvents) sched).1.completedRequests ≤
        (runSched (mkTwigRenderer user).counters (reqs.map requestEvents) sched).1.totalRequests := by
  constructor
  · intro outs
    refine ⟨?_, rfl, ?_⟩
    · rw [requestEvents, evCount_cons, retryEventsGo_no_total outs attempts 0]
      simp
    · rw [requestEvents, evCount_cons]
      have := retryEventsGo_completed_le_one outs attempts 0
      simp only [reduceCtorEq, if_false]
      omega
  · intro user reqs sched
    have hinit : schedInv (mkTwigRenderer user).counters (reqs.map requestEvents) := by
      constructor
      · intro L hL
        obtain ⟨outs, _, hout⟩ := List.mem_map.mp hL
        rw [← hout]
        exact requestEvents_wf outs
      · rw [reservedSum_requestEvents]
        simp [mkTwigRenderer, TwigRendererState.counters]
    have := runSched_inv sched _ _ hinit
    have hle := this.2
    omega

/-- C2: `request(type, body)` issues the network call at most `attempts = 3`
times; when all three attempts fail, it returns the last captured failure
result (`ok` false, no `html`, the last failure's cause as `message`) as an
ordinary value — the catch block swallows every fetch rejection, so nothing is
thrown on the rendering path — and the loop's `completedRequests` delta is
zero for that request. -/
theorem retry_exhaustion :
    (∀ outs : Nat → AttemptOutcome, (requestOutcome outs).fetchCalls ≤ attempts) ∧
    ∀ (outs : Nat → AttemptOutcome) (m0 m1 m2 : String),
      outs 0 = AttemptOutcome.failure m0 →
      outs 1 = AttemptOutcome.failure m1 →
      outs 2 = AttemptOutcome.failure m2 →
      requestOutcome outs =
        { result := some { ok := false, html := none, message := some m2 },
          fetchCalls := 3, completedDelta := 0 } := by
  constructor
  · intro outs
    exact requestLoopGo_fetchCalls_le outs attempts 0
  · intro outs m0 m1 m2 h0 h1 h2
    simp [requestOutcome, attempts, requestLoopGo, h0, h1, h2, Option.getD]

/-- Witness for C2: three concrete consecutive failures yield the last failure
as the returned result, three fetch calls, and no completed-request increment. -/
theorem retry_exhaustion_witness :
    requestOutcome (fun _ => AttemptOutcome.failure "boom") =
      { result := some { ok := false, html := none, message := some "boom" },
        fetchCalls := 3, completedDelta := 0 } :=
  retry_exhaustion.2 (fun _ => AttemptOutcome.failure "boom") "boom" "boom" "boom" rfl rfl rfl

/-- C3: after every completed dispatch of `render`/`renderString` the
idle-shutdown evaluation runs on the post-dispatch counters.  With keep-alive
disabled it stops the worker immediately exactly when
`completedRequests = totalRequests` and `inProgressRequests = 0` (the server
state disjunction in the source is a tautology and never blocks this branch),
and otherwise schedules one re-check after 300ms whose callback stops the
worker exactly when the same counter condition then holds; with keep-alive
enabled it does nothing. -/
theorem idle_shutdown_eval :
    (∀ (δ : Type) (net : String → RequestBody δ → Nat → AttemptOutcome)
        (tpl : String) (d : δ) (cfg : TwigConfig) (c : Counters) (st : ServerState),
      (render net tpl d cfg c st).2.2 =
        closeServerAction cfg.keepAlive (render net tpl d cfg c st).2.1.completedRequests
          (render net tpl d cfg c st).2.1.totalRequests
          (render net tpl d cfg c st).2.1.inProgressRequests st ∧
      (renderString net tpl d cfg c st).2.2 =
        closeServerAction cfg.keepAlive (renderString net tpl d cfg c st).2.1.completedRequests
          (renderString net tpl d cfg c st).2.1.totalRequests
          (renderString net tpl d cfg c st).2.1.inProgressRequests st) ∧
    (∀ (completed total : Nat) (inProgress : Int) (st : ServerState),
      closeServerAction false completed total inProgress st =
        if completed = total ∧ inProgress = 0 then CloseAction.stopNow
        else CloseAction.recheckAfter 300) ∧
    (∀ (completed total : Nat) (inProgress : Int) (st : ServerState),
      closeServerAction true completed total inProgress st = CloseAction.noAction) ∧
    ∀ (completed total : Nat) (inProgress : Int),
      closeServerRecheck completed total inProgress = true ↔
        (completed = total ∧ inProgress = 0) := by
  refine ⟨fun δ net tpl d cfg c st => ⟨rfl, rfl⟩, ?_, ?_, ?_⟩
  · intro completed total inProgress st
    have hst : st ≠ ServerState.STOPPING ∨ st ≠ ServerState.STOPPED := by
      cases st <;> simp
    by_cases h : completed = total ∧ inProgress = 0
    · simp [closeServerAction, h.1, h.2, hst]
    · have h2 : ¬(completed = total ∧ inProgress = 0 ∧
          (st ≠ ServerState.STOPPING ∨ st ≠ ServerState.STOPPED)) :=
        fun hc => h ⟨hc.1, hc.2.1⟩
      simp [closeServerAction, h2, h]
  · intro completed total inProgress st
    simp [closeServerAction]
  · intro completed total inProgress
    simp [closeServerRecheck]

/-- C5 (amended): a non-JSON response with successful status and no `Warning`
header makes `request` return `ok` true with the raw body text as `html` and a
null `message` — `headers.get` yields null for the absent header, so `message`
is null rather than the empty string. -/
theorem nonjson_success_result :
    ∀ (outs : Nat → AttemptOutcome) (resp : WorkerResponse),
      outs 0 = AttemptOutcome.success resp →
      resp.contentType ≠ some "application/json" →
      resp.ok = true →
      resp.warning = none →
      (requestOutcome outs).result =
        some { ok := true, html := some resp.textBody, message := none } := by
  intro outs resp h0 hct hok hw
  simp [requestOutcome, attempts, requestLoopGo, h0, interpretResponse, hct, hok, hw]

/-- Witness for C5: a concrete non-JSON success response with no warning
header produces the raw body as `html` with a null message. -/
theorem nonjson_success_result_witness :
    (requestOutcome (fun _ => AttemptOutcome.success
        { ok := true, contentType := some "text/html", warning := none,
          jsonBody := { ok := true, html := none, message := none },
          textBody := "out" })).result =
      some { ok := true, html := some "out", message := none } :=
  nonjson_success_result _
    { ok := true, contentType := some "text/html", warning := none,
      jsonBody := { ok := true, html := none, message := none }, textBody := "out" }
    rfl (by simp) rfl rfl

/-- Counterexample to C5 as stated: for a non-JSON success response with no
`Warning` header, the result's `message` field is null (`none`), so the
returned result is not the claimed one whose `message` is the empty string. -/
theorem nonjson_message_not_empty_string :
    (requestOutcome (fun _ => AttemptOutcome.success
        { ok := true, contentType := some "text/html", warning := none,
          jsonBody := { ok := true, html := none, message := none },
          textBody := "out" })).result =
      some { ok := true, html := some "out", message := none } ∧
    some ({ ok := true, html := some "out", message := none } : RenderResult) ≠
      some ({ ok := true, html := some "out", message := some "" } : RenderResult) := by
  constructor
  · simp [requestOutcome, attempts, requestLoopGo, interpretResponse]
  · simp

/-- C7: calling `init()` while the state is STARTING returns immediately with
the state untouched, allocating no port, writing no config artifact and
spawning no worker; calling it while STOPPING flips the state to READY and
returns, likewise without allocating, writing or spawning. -/
theorem init_idempotent_and_recovery :
    ∀ (observed : Nat → ServerState) (fuel : Nat),
      init ServerState.STARTING observed fuel =
        some { returnedState := ServerState.STARTING, portAllocated := false,
               configWritten := false, spawned := false } ∧
      init ServerState.STOPPING observed fuel =
        some { returnedState := ServerState.READY, portAllocated := false,
               configWritten := false, spawned := false } :=
  fun _ _ => ⟨rfl, rfl⟩

/-- C9: `render` returns exactly the result (and counter effect) of
`request("renderFile", template and data)`, and `renderString` exactly that of
`request("renderString", template and data)`; the facades add nothing to the
returned result. -/
theorem facade_delegation :
    ∀ (δ : Type) (net : String → RequestBody δ → Nat → AttemptOutcome)
      (tpl s : String) (d : δ) (cfg : TwigConfig) (c : Counters) (st : ServerState),
      (render net tpl d cfg c st).1 =
        (request net "renderFile" { template := some tpl, data := some d } c).1 ∧
      (render net tpl d cfg c st).2.1 =
        (request net "renderFile" { template := some tpl, data := some d } c).2 ∧
      (renderString net s d cfg c st).1 =
        (request net "renderString" { template := some s, data := some d } c).1 ∧
      (renderString net s d cfg c st).2.1 =
        (request net "renderString" { template := some s, data := some d } c).2 :=
  fun _ _ _ _ _ _ _ _ => ⟨rfl, rfl, rfl, rfl⟩

/-- Counterexample to C4 as stated: a call to `init()` entered while the state
is STARTING resolves immediately — and at that moment the state is still
STARTING, not READY or another non-STARTING state. -/
theorem init_returns_while_starting :
    init ServerState.STARTING (fun _ => ServerState.STOPPED) 0 =
      some { returnedState := ServerState.STARTING, portAllocated := false,
             configWritten := false, spawned := false } := rfl

/-- C4 (amended): for every `init()` call entered in a state other than
STARTING (STOPPED, READY or STOPPING), whenever the call resolves the state is
not STARTING — the spawn path polls `checkServerWhileStarting` until the state
leaves STARTING and the STOPPING path flips to READY; only the idempotent
early return of a call entered while already STARTING resolves with state
STARTING. -/
theorem init_non_starting :
    ∀ (entry : ServerState) (observed : Nat → ServerState) (fuel : Nat) (r : InitResult),
      entry ≠ ServerState.STARTING →
      init entry observed fuel = some r →
      r.returnedState ≠ ServerState.STARTING := by
  intro entry observed fuel r hentry hinit
  cases entry with
  | STARTING => exact absurd rfl hentry
  | STOPPING =>
    have hr : ({ returnedState := ServerState.READY, portAllocated := false,
                 configWritten := false, spawned := false } : InitResult) = r := by
      simpa [init] using hinit
    rw [← hr]
    simp
  | STOPPED =>
    cases hc : checkLoop observed fuel 0 with
    | none => simp [init, hc] at hinit
    | some s =>
      simp only [init, hc, Option.map_some', Option.some.injEq] at hinit
      rw [← hinit]
      exact checkLoop_ne_starting observed fuel 0 s hc
  | READY =>
    cases hc : checkLoop observed fuel 0 with
    | none => simp [init, hc] at hinit
    | some s =>
      simp only [init, hc, Option.map_some', Option.some.injEq] at hinit
      rw [← hinit]
      exact checkLoop_ne_starting observed fuel 0 s hc

/-- Witness for C4: an `init()` call entered in STOPPED whose first readiness
probe observes READY resolves with the non-STARTING state READY. -/
theorem init_non_starting_witness :
    ({ returnedState := ServerState.READY, portAllocated := true,
       configWritten := true, spawned := true } : InitResult).returnedState ≠
      ServerState.STARTING :=
  init_non_starting ServerState.STOPPED (fun _ => ServerState.READY) 0
    { returnedState := ServerState.READY, portAllocated := true,
      configWritten := true, spawned := true } (by simp) rfl

theorem requestLoopGo_result_cases (outs : Nat → AttemptOutcome) :
    ∀ (fuel attempt : Nat) (r : RenderResult),
      (requestLoopGo outs attempt fuel).result = some r →
      (∃ m, r = { ok := false, html := none, message := some m }) ∨
      ∃ j resp, outs j = AttemptOutcome.success resp ∧ r = interpretResponse resp := by
  intro fuel
  induction fuel with
  | zero => intro attempt r h; simp [requestLoopGo] at h
  | succ f ih =>
    intro attempt r h
    cases ho : outs attempt with
    | success resp =>
      simp only [requestLoopGo, ho, Option.some.injEq] at h
      exact Or.inr ⟨attempt, resp, ho, h.symm⟩
    | failure msg =>
      simp only [requestLoopGo, ho, Option.some.injEq] at h
      cases hrest : (requestLoopGo outs (attempt + 1) f).result with
      | none =>
        rw [hrest] at h
        exact Or.inl ⟨msg, h.symm⟩
      | some r2 =>
        rw [hrest] at h
        simp only [Option.getD_some] at h
        subst h
        exact ih (attempt + 1) _ hrest

/-- Counterexample to C6 as stated: a non-JSON unsuccessful response carrying
no `Warning` header makes `request` produce a result with `ok` false whose
`message` is null — not a non-empty string. -/
theorem false_result_with_absent_message :
    (requestOutcome (fun _ => AttemptOutcome.success
        { ok := false, contentType := some "text/html", warning := none,
          jsonBody := { ok := true, html := none, message := none },
          textBody := "partial" })).result =
      some { ok := false, html := some "partial", message := none } := by
  simp [requestOutcome, attempts, requestLoopGo, interpretResponse]

/-- C6 (amended): every result of `request` with `ok` false either comes from
the exhausted-retry path — where `html` is absent and `message` is present,
carrying the last failure cause — or is decoded from some attempt's resolved
response (the parsed JSON body, or the non-JSON branch whose `message` is the
`Warning` header); on the latter paths the message mirrors the worker's data
and may be null or empty, so `ok` false does not by itself guarantee a
non-empty message. -/
theorem false_result_source :
    ∀ (outs : Nat → AttemptOutcome) (r : RenderResult),
      (requestOutcome outs).result = some r →
      r.ok = false →
      (∃ m, r = { ok := false, html := none, message := some m }) ∨
      ∃ j resp, outs j = AttemptOutcome.success resp ∧ r = interpretResponse resp :=
  fun outs r h _hok => requestLoopGo_result_cases outs attempts 0 r h

/-- Witness for C6: the all-failures run produces an `ok` false result that is
exactly the retry-path shape with the last failure cause as its message. -/
theorem false_result_source_witness :
    (∃ m, ({ ok := false, html := none, message := some "x" } : RenderResult) =
        { ok := false, html := none, message := some m }) ∨
      ∃ j resp, (fun _k : Nat => AttemptOutcome.failure "x") j = AttemptOutcome.success resp ∧
        ({ ok := false, html := none, message := some "x" } : RenderResult) =
          interpretResponse resp :=
  false_result_source (fun _ : Nat => AttemptOutcome.failure "x")
    { ok := false, html := none, message := some "x" } rfl rfl

/-- C8: over any number of `getOpenPort()` calls on one renderer instance, the
issued ports are pairwise distinct, none of them was in the registry the
sequence started with, and the registry only grows — every previously
registered port and every issued port is in the final registry (each chosen
port is added before its call returns). -/
theorem port_allocator_fresh :
    ∀ (runs : List ((Nat → Nat) × Nat)) (used ps final : List Nat),
      getOpenPortRuns runs used = some (ps, final) →
      ps.Nodup ∧ (∀ p ∈ ps, p ∉ used) ∧ (∀ q ∈ used, q ∈ final) ∧
        ∀ p ∈ ps, p ∈ final := by
  intro runs
  induction runs with
  | nil =>
    intro used ps final h
    simp only [getOpenPortRuns, Option.some.injEq, Prod.mk.injEq] at h
    rw [← h.1, ← h.2]
    exact ⟨List.nodup_nil, by simp, fun q hq => hq, by simp⟩
  | cons run rest ih =>
    intro used ps final h
    obtain ⟨offers, fuel⟩ := run
    simp only [getOpenPortRuns] at h
    cases hp : pickPort offers used fuel 0 with
    | none => rw [getOpenPort, hp] at h; simp at h
    | some p =>
      rw [getOpenPort, hp] at h
      simp only at h
      cases hr : getOpenPortRuns rest (p :: used) with
      | none => rw [hr] at h; simp at h
      | some pf =>
        obtain ⟨ps2, final2⟩ := pf
        rw [hr] at h
        simp only [Option.some.injEq, Prod.mk.injEq] at h
        obtain ⟨hps, hfin⟩ := h
        have hpu : p ∉ used := pickPort_not_used offers used fuel 0 p hp
        obtain ⟨hnd, hnotin, hgrow, hfinal⟩ := ih (p :: used) ps2 final2 hr
        rw [← hps, ← hfin]
        refine ⟨?_, ?_, ?_, ?_⟩
        · refine List.nodup_cons.mpr ⟨?_, hnd⟩
          intro hmem
          exact (hnotin p hmem) (List.mem_cons_self p used)
        · intro q hq
          rcases List.mem_cons.mp hq with hq | hq
          · rw [hq]; exact hpu
          · intro hqu
            exact (hnotin q hq) (List.mem_cons_of_mem p hqu)
        · intro q hq
          exact hgrow q (List.mem_cons_of_mem p hq)
        · intro q hq
          rcases List.mem_cons.mp hq with hq | hq
          · rw [hq]
            exact hgrow p (List.mem_cons_self p used)
          · exact hfinal q hq

/-- Witness for C8: two consecutive allocations — the OS offers 5, then offers
0 — issue distinct fresh ports and leave both in the registry. -/
theorem port_allocator_fresh_witness :
    ([5, 0] : List Nat).Nodup ∧ (∀ p ∈ ([5, 0] : List Nat), p ∉ ([] : List Nat)) ∧
      (∀ q ∈ ([] : List Nat), q ∈ ([0, 5] : List Nat)) ∧
      ∀ p ∈ ([5, 0] : List Nat), p ∈ ([0, 5] : List Nat) :=
  port_allocator_fresh [(fun _ => 5, 0), (fun i => i, 3)] [] [5, 0] [0, 5] rfl

/-- C10: the constructor unconditionally overwrites `config.verbose` with
`true` after copying the user config, so every constructed renderer is
verbose — including the one built from the plugin glue's config, which passes
`verbose: false` by default. -/
theorem verbose_forced :
    (∀ user : TwigConfig, (mkTwigRenderer user).config.verbose = true) ∧
    (∀ user : TwigConfig, (mkTwigRenderer { user with verbose := false }).config.verbose = true) ∧
    ∀ optDebug optAutoescape optVerbose : Option Bool,
      (mkTwigRenderer (pluginRendererConfig optDebug optAutoescape optVerbose)).config.verbose
        = true :=
  ⟨fun _ => rfl, fun _ => rfl, fun _ _ _ => rfl⟩

end TwigRenderer
